import Mathlib

/-!
Verification of the offshore wind energy transmission network model builder
(`optimise_combined.py` and `scripts/wt_cost.py`): cost functions, geospatial
feasibility filters, hub activation constraints, multi-stage lower-bound
bookkeeping, and result rounding.

Real-valued quantities of the program are embedded as rationals (every machine
float is a rational number, and all constants appearing in the source are exact
decimal fractions).  The great-circle distance routine (`haversine`), which the
source evaluates with floating-point trigonometry, is abstracted as a parameter
of the feasibility filters: every property proved about the filters holds for
an arbitrary distance function, hence in particular for the haversine distance
the program computes.
-/

/-- Modelled from the spec: `scripts/present_value.py` (`present_value_single`)
is imported by `optimise_combined.py` but is not under `src/`.  Section 4.2 of
the spec describes it as producing "discounted lifecycle cost (equipment +
installation + yearly operating + decommissioning, each present-valued to a
reference year)", and the glossary defines present value as "cost expressed as
its discounted equivalent at a reference year".  It is therefore modelled as a
linear combination of the four cost components with per-component discount
weights; the weights bundle the dependence on the reference year (for the
yearly operating cost the weight aggregates the discount factors of the
operating years). -/
structure PVWeights where
  equip : ℚ
  inst : ℚ
  ope : ℚ
  deco : ℚ

/-- Modelled from the spec: the discounted lifecycle cost as a positive-weight
linear combination of equipment, installation, yearly operating, and
decommissioning cost (see `PVWeights`). -/
def present_value_single (w : PVWeights) (equip_cost inst_cost ope_cost_yearly deco_cost : ℚ) : ℚ :=
  w.equip * equip_cost + w.inst * inst_cost + w.ope * ope_cost_yearly + w.deco * deco_cost

/-- All four discount weights are non-negative (any discounting scheme
satisfies this). -/
def NonnegWeights (w : PVWeights) : Prop :=
  0 ≤ w.equip ∧ 0 ≤ w.inst ∧ 0 ≤ w.ope ∧ 0 ≤ w.deco

/-- The undiscounted scheme (all weights 1): the plain sum of the four cost
components, used as a concrete admissible instance of `PVWeights`. -/
def unit_weights : PVWeights := ⟨1, 1, 1, 1⟩

/-- The string "lin" selecting the continuous parallel-cable count. -/
def lin_mode : String := "lin"

/-- The string "ceil" selecting the integer-rounded parallel-cable count. -/
def ceil_mode : String := "ceil"

/-- `onss_cost_lin` of `optimise_combined.py` (lines 81-105): cost of onshore
substation expansion.  `equip_cost = (capacity - threshold) * 0.02287`,
`ope_cost_yearly = 0.015 * equip_cost`, installation and decommissioning zero,
then present-valued. -/
def onss_cost_lin (w : PVWeights) (capacity threshold : ℚ) : ℚ :=
  let threshold_equip_cost : ℚ := 0.02287
  let equip_cost := (capacity - threshold) * threshold_equip_cost
  let ope_cost_yearly := 0.015 * equip_cost
  present_value_single w equip_cost 0 ope_cost_yearly 0

/-- `wf_cost_lin` of `optimise_combined.py` (lines 254-267): wind-farm cost
proportional to the selected fraction of the total capacity. -/
def wf_cost_lin (wf_cost wf_total_cap wf_cap : ℚ) : ℚ :=
  wf_cost * (wf_cap / wf_total_cap)

/-- `ec1_cost_fun` of `optimise_combined.py` (lines 107-143): WF to EH export
cable.  Cable length `1.10 * distance` (no onshore-transition add-on), cable
capacity 348 MW, capacity factor 0.95, equipment 0.860 and installation 0.540
Meu/km.  For a `function` argument other than "lin" or "ceil" the source never
assigns `parallel_cables` and the call fails, embedded as `none`. -/
def ec1_cost_fun (w : PVWeights) (distance capacity : ℚ) (function : String) : Option ℚ :=
  let cable_length := 1.10 * distance
  let cable_capacity : ℚ := 348
  let cable_equip_cost : ℚ := 0.860
  let cable_inst_cost : ℚ := 0.540
  let capacity_factor : ℚ := 0.95
  let pc : Option ℚ :=
    if function = lin_mode then some (capacity / (cable_capacity * capacity_factor))
    else if function = ceil_mode then some ((Int.ceil (capacity / (cable_capacity * capacity_factor)) : ℚ))
    else none
  pc.map fun parallel_cables =>
    let equip_cost := parallel_cables * cable_length * cable_equip_cost
    let inst_cost := parallel_cables * cable_length * cable_inst_cost
    let ope_cost_yearly := 0.2 * (1 / 100) * equip_cost
    let deco_cost := 0.5 * inst_cost
    present_value_single w equip_cost inst_cost ope_cost_yearly deco_cost

/-- `ec2_cost_fun` of `optimise_combined.py` (lines 145-181): EH to ONSS export
cable.  Identical to `ec1_cost_fun` except for the cable length
`1.10 * distance + 2` (offshore-to-onshore transition add-on). -/
def ec2_cost_fun (w : PVWeights) (distance capacity : ℚ) (function : String) : Option ℚ :=
  let cable_length := 1.10 * distance + 2
  let cable_capacity : ℚ := 348
  let cable_equip_cost : ℚ := 0.860
  let cable_inst_cost : ℚ := 0.540
  let capacity_factor : ℚ := 0.95
  let pc : Option ℚ :=
    if function = lin_mode then some (capacity / (cable_capacity * capacity_factor))
    else if function = ceil_mode then some ((Int.ceil (capacity / (cable_capacity * capacity_factor)) : ℚ))
    else none
  pc.map fun parallel_cables =>
    let equip_cost := parallel_cables * cable_length * cable_equip_cost
    let inst_cost := parallel_cables * cable_length * cable_inst_cost
    let ope_cost_yearly := 0.2 * (1 / 100) * equip_cost
    let deco_cost := 0.5 * inst_cost
    present_value_single w equip_cost inst_cost ope_cost_yearly deco_cost

/-- `ec3_cost_fun` of `optimise_combined.py` (lines 183-219): WF to ONSS direct
export cable.  Body identical to `ec2_cost_fun` (length `1.10 * distance + 2`,
same rates). -/
def ec3_cost_fun (w : PVWeights) (distance capacity : ℚ) (function : String) : Option ℚ :=
  let cable_length := 1.10 * distance + 2
  let cable_capacity : ℚ := 348
  let cable_equip_cost : ℚ := 0.860
  let cable_inst_cost : ℚ := 0.540
  let capacity_factor : ℚ := 0.95
  let pc : Option ℚ :=
    if function = lin_mode then some (capacity / (cable_capacity * capacity_factor))
    else if function = ceil_mode then some ((Int.ceil (capacity / (cable_capacity * capacity_factor)) : ℚ))
    else none
  pc.map fun parallel_cables =>
    let equip_cost := parallel_cables * cable_length * cable_equip_cost
    let inst_cost := parallel_cables * cable_length * cable_inst_cost
    let ope_cost_yearly := 0.2 * (1 / 100) * equip_cost
    let deco_cost := 0.5 * inst_cost
    present_value_single w equip_cost inst_cost ope_cost_yearly deco_cost

/-- `onc_cost_fun` of `optimise_combined.py` (lines 221-252): onshore peer
cable.  Length `1.10 * distance` and halved installation rate
`0.540 * 0.5` Meu/km. -/
def onc_cost_fun (w : PVWeights) (distance capacity : ℚ) (function : String) : Option ℚ :=
  let cable_length := 1.10 * distance
  let cable_capacity : ℚ := 348
  let cable_equip_cost : ℚ := 0.860
  let cable_inst_cost : ℚ := 0.540 * 0.5
  let capacity_factor : ℚ := 0.95
  let pc : Option ℚ :=
    if function = lin_mode then some (capacity / (cable_capacity * capacity_factor))
    else if function = ceil_mode then some ((Int.ceil (capacity / (cable_capacity * capacity_factor)) : ℚ))
    else none
  pc.map fun parallel_cables =>
    let equip_cost := parallel_cables * cable_length * cable_equip_cost
    let inst_cost := parallel_cables * cable_length * cable_inst_cost
    let ope_cost_yearly := 0.2 * (1 / 100) * equip_cost
    let deco_cost := 0.5 * inst_cost
    present_value_single w equip_cost inst_cost ope_cost_yearly deco_cost

/-- The number of parallel cables as a function of capacity and mode, shared by
all four cable classes: the continuous ratio for "lin", its ceiling for
"ceil", failure otherwise. -/
def parallel_cables (capacity : ℚ) (function : String) : Option ℚ :=
  if function = lin_mode then some (capacity / (348 * 0.95))
  else if function = ceil_mode then some ((Int.ceil (capacity / (348 * 0.95)) : ℚ))
  else none

/-- Present-valued cable cost for a given cable length, equipment and
installation rates, and parallel-cable count (the common tail of the four
cable cost functions). -/
def cable_pv (w : PVWeights) (cable_length equip_rate inst_rate pc : ℚ) : ℚ :=
  let equip_cost := pc * cable_length * equip_rate
  let inst_cost := pc * cable_length * inst_rate
  present_value_single w equip_cost inst_cost (0.2 * (1 / 100) * equip_cost) (0.5 * inst_cost)

/-- `zero_th` of `opt_model` (line 432): the zero-threshold parameter `1e-3`. -/
def zero_th : ℚ := 1 / 1000

/-- `wt_cap` of `opt_model` (line 434): the wind turbine unit capacity, 15 MW. -/
def wt_cap : ℚ := 15

/-- `eh_cap_lim` of `opt_model` (line 435): the energy hub capacity limit,
2500 MW. -/
def eh_cap_lim : ℚ := 2500

/-- `nearest_wt_cap` of `opt_model` (lines 995-999):
`int(np.ceil(cap / wt_cap)) * wt_cap`. -/
def nearest_wt_cap (cap : ℚ) : ℚ :=
  (Int.ceil (cap / wt_cap) : ℚ) * wt_cap

/-- `find_viable_ec1` of `optimise_combined.py` (lines 285-298): all (wind
farm, energy hub) pairs at distance at most 250 km.  `dist` abstracts the
haversine evaluation on the stored coordinates; the id lists are the key sets
of the coordinate dictionaries.  No country information is consulted. -/
def find_viable_ec1 (dist : ℤ → ℤ → ℚ) (wf_ids eh_ids : List ℤ) : List (ℤ × ℤ) :=
  (wf_ids.product eh_ids).filter fun p => decide (dist p.1 p.2 ≤ 250)

/-- `find_viable_ec2` of `optimise_combined.py` (lines 300-313): all (energy
hub, onshore substation) pairs at distance at most 250 km. -/
def find_viable_ec2 (dist : ℤ → ℤ → ℚ) (eh_ids onss_ids : List ℤ) : List (ℤ × ℤ) :=
  (eh_ids.product onss_ids).filter fun p => decide (dist p.1 p.2 ≤ 250)

/-- `find_viable_ec3` of `optimise_combined.py` (lines 315-327): all (wind
farm, onshore substation) pairs at distance at most 500 km. -/
def find_viable_ec3 (dist : ℤ → ℤ → ℚ) (wf_ids onss_ids : List ℤ) : List (ℤ × ℤ) :=
  (wf_ids.product onss_ids).filter fun p => decide (dist p.1 p.2 ≤ 500)

/-- `find_viable_onc` of `optimise_combined.py` (lines 329-342): all ordered
pairs of distinct onshore substations at distance at most 250 km. -/
def find_viable_onc (dist : ℤ → ℤ → ℚ) (onss_ids : List ℤ) : List (ℤ × ℤ) :=
  (onss_ids.product onss_ids).filter fun p =>
    decide (p.1 ≠ p.2) && decide (dist p.1 p.2 ≤ 250)

/-- Concrete failing-input data: one wind farm (id 1) in Germany (ISO code 1
under `iso_to_int_mp`). -/
def cex_wf_iso : ℤ → ℤ := fun _ => 1

/-- Concrete failing-input data: one energy hub (id 2) in Sweden (ISO code 8
under `iso_to_int_mp`). -/
def cex_eh_iso : ℤ → ℤ := fun _ => 8

/-- Concrete failing-input data: the two entities are 100 km apart. -/
def cex_dist : ℤ → ℤ → ℚ := fun _ _ => 100

/-- Python's built-in `round`: round half to even, used by `solve_multi_stage`
(line 1330) on realized capacities. -/
def pythonRound (q : ℚ) : ℤ :=
  if q - Int.floor q < 1 / 2 then Int.floor q
  else if (1 : ℚ) / 2 < q - Int.floor q then Int.floor q + 1
  else if Even (Int.floor q) then Int.floor q else Int.floor q + 1

/-- The realized capacity recorded after a solved stage (`solve_multi_stage`,
line 1330): `round(value)` for indices whose value exceeds `zero_th`, and 0
(the `.get(index, 0)` default) otherwise. -/
def realized_cap (v : ℚ) : ℚ :=
  if zero_th < v then (pythonRound v : ℚ) else 0

/-- `enforce_increase_variables` of `optimise_combined.py` (lines 1266-1284),
for one variable: the recorded previous capacity becomes the new lower bound
when it exceeds `zero_th`; otherwise the bound is left unchanged. -/
def enforce_increase_lb (lb prev_cap : ℚ) : ℚ :=
  if zero_th < prev_cap then prev_cap else lb

/-- `eh_active_rule` of `opt_model` (lines 891-898): the hub capacity is at
most the activation binary times the hub limit plus the zero threshold. -/
def eh_active_rule (eh_cap eh_active_bin : ℚ) : Prop :=
  eh_cap ≤ eh_active_bin * eh_cap_lim + zero_th

/-- `max_eh_cap_rule` of `opt_model` (lines 882-889): the hub capacity is at
most the hub capacity limit. -/
def max_eh_cap_rule (eh_cap : ℚ) : Prop :=
  eh_cap ≤ eh_cap_lim

/-- The string "monopile". -/
def monopile : String := "monopile"

/-- The string "jacket". -/
def jacket : String := "jacket"

/-- The string "floating". -/
def floating : String := "floating"

/-- `check_supp` of `scripts/wt_cost.py` (lines 2-17): support structure
selection by water depth.  The three branches of the source are exhaustive
over the rationals; the fall-through (Python's implicit `None`) is embedded as
`none`. -/
def check_supp (water_depth : ℚ) : Option String :=
  if water_depth < 25 then some monopile
  else if 25 ≤ water_depth ∧ water_depth < 55 then some jacket
  else if 55 ≤ water_depth then some floating
  else none

/-- The 2030 support-structure coefficient set of `calc_equip_cost`
(`scripts/wt_cost.py`), a dictionary lookup: unknown keys fail. -/
def support_structure_coeff_2030 (s : String) : Option (ℚ × ℚ × ℚ) :=
  if s = monopile then some (181, 552, 370)
  else if s = jacket then some (103, -2043, 478)
  else if s = floating then some (0, 697, 1223)
  else none

/-- The 2040 support-structure coefficient set of `calc_equip_cost`. -/
def support_structure_coeff_2040 (s : String) : Option (ℚ × ℚ × ℚ) :=
  if s = monopile then some (176, 536, 270)
  else if s = jacket then some (100, -1986, 375)
  else if s = floating then some (0, 678, 1034)
  else none

/-- The 2050 support-structure coefficient set of `calc_equip_cost`. -/
def support_structure_coeff_2050 (s : String) : Option (ℚ × ℚ × ℚ) :=
  if s = monopile then some (171, 521, 170)
  else if s = jacket then some (97, -1930, 658)
  else if s = floating then some (0, 658, 844)
  else none

/-- `calc_equip_cost` of `scripts/wt_cost.py` (lines 19-66): equipment cost
from water depth, support structure, ice cover, and turbine capacity.  An
unrecognised `first_year` leaves the coefficient tables unbound in the source
(failure, embedded as `none`), as does an unknown structure key. -/
def calc_equip_cost (first_year : ℤ) (water_depth : ℚ) (support_structure : String)
    (ice_cover : ℤ) (turbine_capacity : ℚ) : Option (ℚ × ℚ) :=
  let yearTable : Option ((String → Option (ℚ × ℚ × ℚ)) × ℚ) :=
    if first_year = 2030 then some (support_structure_coeff_2030, 1200 * 1000)
    else if first_year = 2040 then some (support_structure_coeff_2040, 1100 * 1000)
    else if first_year = 2050 then some (support_structure_coeff_2050, 1000 * 1000)
    else none
  yearTable.bind fun yt =>
    (yt.1 support_structure).map fun c =>
      let supp_cost := turbine_capacity * (c.1 * water_depth ^ 2 + c.2.1 * water_depth + c.2.2 * 1000)
      let turbine_coeff := if ice_cover = 1 then yt.2 * (1 + 0.4 * 0.5714) else yt.2
      let turbine_cost := turbine_capacity * turbine_coeff
      (supp_cost * (1 / 1000000), turbine_cost * (1 / 1000000))

/-- C3: a concrete demonstration that viable-set membership does not require
equal country codes.  The filter functions receive no country data and no
`cross_border` flag at all (`opt_model` lines 651-663 invoke them identically
for every `cross_border` value), so a wind farm in Germany (ISO code 1) and an
energy hub in Sweden (ISO code 8) only 100 km apart form a viable WF-EH
connection even when cross-border pooling is disabled, contradicting both the
spec invariant and the functions' own docstrings ("ensuring that they belong
to the same country based on their ISO codes"). -/
theorem viable_ec1_ignores_country_bug :
    (1, 2) ∈ find_viable_ec1 cex_dist [1] [2] ∧ cex_wf_iso 1 ≠ cex_eh_iso 2 := by
  constructor
  · simp [find_viable_ec1, cex_dist, List.product]
    norm_num
  · decide

/-- C4: for every distance function (in particular the haversine great-circle
distance the program computes), a pair is in a class's viable set iff both ids
are present and the distance is at most the class's enforced threshold
(250 km for WF-EH and EH-ONSS, 500 km for WF-ONSS, 250 km for ONSS-ONSS),
with the boundary value included; for the substation-peer class the two
endpoint ids must additionally differ. -/
theorem viable_membership_iff (dist : ℤ → ℤ → ℚ) (as bs cs : List ℤ) (x y : ℤ) :
    ((x, y) ∈ find_viable_ec1 dist as bs ↔ x ∈ as ∧ y ∈ bs ∧ dist x y ≤ 250) ∧
    ((x, y) ∈ find_viable_ec2 dist as bs ↔ x ∈ as ∧ y ∈ bs ∧ dist x y ≤ 250) ∧
    ((x, y) ∈ find_viable_ec3 dist as bs ↔ x ∈ as ∧ y ∈ bs ∧ dist x y ≤ 500) ∧
    ((x, y) ∈ find_viable_onc dist cs ↔ x ∈ cs ∧ y ∈ cs ∧ x ≠ y ∧ dist x y ≤ 250) := by
  refine ⟨?_, ?_, ?_, ?_⟩ <;>
    simp [find_viable_ec1, find_viable_ec2, find_viable_ec3, find_viable_onc,
      List.mem_filter, List.pair_mem_product, and_assoc]

/-- C5: a binary activation variable together with the two hub constraints of
the model (`eh_active_rule`: capacity at most binary times limit plus
zero-threshold; `max_eh_cap_rule`: capacity at most the limit) forces the
binary to 1 whenever the hub capacity exceeds the zero threshold, bounds the
capacity by the zero threshold whenever the binary is 0, and bounds the
capacity by the global hub limit. -/
theorem eh_activation_coupling (cap b : ℚ) (hb : b = 0 ∨ b = 1)
    (h1 : eh_active_rule cap b) (h2 : max_eh_cap_rule cap) :
    (zero_th < cap → b = 1) ∧ (b = 0 → cap ≤ zero_th) ∧ cap ≤ eh_cap_lim := by
  unfold eh_active_rule at h1
  unfold max_eh_cap_rule at h2
  rcases hb with hb | hb
  · subst hb
    refine ⟨fun hcap => absurd h1 ?_, fun _ => ?_, h2⟩
    · push_neg
      linarith
    · linarith
  · subst hb
    exact ⟨fun _ => rfl, fun h => by norm_num at h, h2⟩

/-- C5 witness: the hub constraints evaluated at capacity 1 MW with the binary
set to 1. -/
theorem eh_activation_coupling_witness : (1 : ℚ) ≤ eh_cap_lim :=
  (eh_activation_coupling 1 1 (Or.inr rfl)
    (by norm_num [eh_active_rule, eh_cap_lim, zero_th])
    (by norm_num [max_eh_cap_rule, eh_cap_lim])).2.2

/-- C7: `check_supp` selects monopile for depth below 25 m, jacket for depth
in [25, 55), and floating for depth at least 55 m (in particular floating at
the boundary 55); and for every reference year of `calc_equip_cost` (2030,
2040, 2050) the coefficient lookup succeeds at the structure `check_supp`
selects, i.e. the same depth-based selection serves every year's coefficient
set. -/
theorem check_supp_selection (d : ℚ) :
    (d < 25 → check_supp d = some monopile) ∧
    (25 ≤ d → d < 55 → check_supp d = some jacket) ∧
    (55 ≤ d → check_supp d = some floating) ∧
    (∀ y : ℤ, y = 2030 ∨ y = 2040 ∨ y = 2050 → ∀ s, check_supp d = some s →
      ∀ (ice : ℤ) (cap : ℚ), (calc_equip_cost y d s ice cap).isSome = true) := by
  refine ⟨fun h => ?_, fun h h55 => ?_, fun h => ?_, ?_⟩
  · rw [check_supp, if_pos h]
  · rw [check_supp, if_neg (not_lt.mpr h), if_pos ⟨h, h55⟩]
  · rw [check_supp, if_neg (not_lt.mpr (by linarith)),
      if_neg (fun hc => by linarith [hc.2]), if_pos h]
  · intro y hy s hs ice cap
    have hsv : s = monopile ∨ s = jacket ∨ s = floating := by
      rw [check_supp] at hs
      split_ifs at hs <;> simp_all
    rcases hy with rfl | rfl | rfl <;> rcases hsv with rfl | rfl | rfl <;>
      simp [calc_equip_cost, support_structure_coeff_2030, support_structure_coeff_2040,
        support_structure_coeff_2050, monopile, jacket, floating]

/-- C7 witness: at water depth exactly 55 m the selection is floating. -/
theorem check_supp_selection_witness : check_supp 55 = some floating :=
  (check_supp_selection 55).2.2.1 (le_refl 55)

/-- C6 counterexample: `nearest_wt_cap` does not pick the multiple of the
unit turbine size nearest to the capacity.  At capacity 1 MW it reports 15 MW,
yet the multiple 0 * 15 is strictly closer (distance 1 versus 14). -/
theorem nearest_wt_cap_not_nearest_cex :
    nearest_wt_cap 1 = 15 ∧ |(0 : ℚ) * wt_cap - 1| < |nearest_wt_cap 1 - 1| := by
  have h : nearest_wt_cap 1 = 15 := by
    rw [nearest_wt_cap, wt_cap]
    norm_num [Int.ceil_eq_iff]
  refine ⟨h, ?_⟩
  rw [h, wt_cap]
  norm_num

/-- C6 (amended): for every non-negative solved capacity, `nearest_wt_cap`
rounds UP: it returns a multiple of the unit turbine size `wt_cap = 15` that
is at least the capacity, and it is the least such multiple. -/
theorem nearest_wt_cap_rounds_up (cap : ℚ) (hc : 0 ≤ cap) :
    (∃ k : ℕ, nearest_wt_cap cap = (k : ℚ) * wt_cap) ∧
    cap ≤ nearest_wt_cap cap ∧
    ∀ m : ℕ, cap ≤ (m : ℚ) * wt_cap → nearest_wt_cap cap ≤ (m : ℚ) * wt_cap := by
  have hwt : (0 : ℚ) < wt_cap := by norm_num [wt_cap]
  have hcl : (0 : ℤ) ≤ Int.ceil (cap / wt_cap) :=
    Int.ceil_nonneg (div_nonneg hc (le_of_lt hwt))
  refine ⟨⟨(Int.ceil (cap / wt_cap)).toNat, ?_⟩, ?_, ?_⟩
  · rw [nearest_wt_cap]
    congr 1
    exact_mod_cast (Int.toNat_of_nonneg hcl).symm
  · rw [nearest_wt_cap]
    have h1 : cap / wt_cap ≤ (Int.ceil (cap / wt_cap) : ℚ) := Int.le_ceil _
    calc cap = cap / wt_cap * wt_cap := by field_simp
    _ ≤ (Int.ceil (cap / wt_cap) : ℚ) * wt_cap :=
        mul_le_mul_of_nonneg_right h1 (le_of_lt hwt)
  · intro m hm
    rw [nearest_wt_cap]
    have h1 : cap / wt_cap ≤ ((m : ℤ) : ℚ) := by
      rw [div_le_iff₀ hwt]
      exact_mod_cast hm
    have h2 : Int.ceil (cap / wt_cap) ≤ (m : ℤ) := Int.ceil_le.mpr h1
    have h3 : (Int.ceil (cap / wt_cap) : ℚ) ≤ ((m : ℤ) : ℚ) := by exact_mod_cast h2
    calc (Int.ceil (cap / wt_cap) : ℚ) * wt_cap
        ≤ ((m : ℤ) : ℚ) * wt_cap := mul_le_mul_of_nonneg_right h3 (le_of_lt hwt)
    _ = (m : ℚ) * wt_cap := by norm_cast

/-- C6 witness: at capacity 1 MW the reported capacity is at least 1 MW. -/
theorem nearest_wt_cap_rounds_up_witness :
    0 ≤ (1 : ℚ) ∧ (1 : ℚ) ≤ nearest_wt_cap 1 :=
  ⟨by norm_num, (nearest_wt_cap_rounds_up 1 (by norm_num)).2.1⟩

/-- C8: the three export-cable cost functions decompose into a parallel-cable
count times a length-driven present-valued cost: the EH-ONSS (`ec2_cost_fun`)
and WF-ONSS (`ec3_cost_fun`) classes cost a cable length of
`1.10 * distance + 2` km (the fixed offshore-to-onshore transition add-on),
the WF-EH class (`ec1_cost_fun`) a length of `1.10 * distance` with no
add-on, and in every class (the onshore peer cable included) the number of
parallel cables is `capacity / (348 * 0.95)` in "lin" mode and its ceiling in
"ceil" mode. -/
theorem cable_cost_structure (w : PVWeights) (d c : ℚ) (f : String) :
    ec1_cost_fun w d c f = (parallel_cables c f).map (cable_pv w (1.10 * d) 0.860 0.540) ∧
    ec2_cost_fun w d c f = (parallel_cables c f).map (cable_pv w (1.10 * d + 2) 0.860 0.540) ∧
    ec3_cost_fun w d c f = (parallel_cables c f).map (cable_pv w (1.10 * d + 2) 0.860 0.540) ∧
    onc_cost_fun w d c f = (parallel_cables c f).map (cable_pv w (1.10 * d) 0.860 (0.540 * 0.5)) ∧
    parallel_cables c lin_mode = some (c / (348 * 0.95)) ∧
    parallel_cables c ceil_mode = some ((Int.ceil (c / (348 * 0.95)) : ℚ)) := by
  refine ⟨rfl, rfl, rfl, rfl, ?_, ?_⟩
  · rw [parallel_cables, if_pos rfl]
  · rw [parallel_cables, if_neg (by decide), if_pos rfl]

/-- C9: the EH-ONSS and WF-ONSS export-cable cost functions are extensionally
equal: same cable length formula, rates, parallel-cable computation and
present-value combination, for every discounting scheme, distance, capacity
and mode string. -/
theorem ec2_cost_fun_eq_ec3 (w : PVWeights) (d c : ℚ) (f : String) :
    ec2_cost_fun w d c f = ec3_cost_fun w d c f := rfl

/-- C10: each cable cost function succeeds exactly when its `function`
argument is "lin" or "ceil"; for any other value the parallel-cable count is
never assigned and the call fails (`none`), so the failure branch is
unreachable precisely under the precondition. -/
theorem cable_mode_isSome_iff (w : PVWeights) (d c : ℚ) (f : String) :
    ((ec1_cost_fun w d c f).isSome = true ↔ f = lin_mode ∨ f = ceil_mode) ∧
    ((ec2_cost_fun w d c f).isSome = true ↔ f = lin_mode ∨ f = ceil_mode) ∧
    ((ec3_cost_fun w d c f).isSome = true ↔ f = lin_mode ∨ f = ceil_mode) ∧
    ((onc_cost_fun w d c f).isSome = true ↔ f = lin_mode ∨ f = ceil_mode) := by
  refine ⟨?_, ?_, ?_, ?_⟩ <;>
  · by_cases h1 : f = lin_mode <;> by_cases h2 : f = ceil_mode <;>
      simp [ec1_cost_fun, ec2_cost_fun, ec3_cost_fun, onc_cost_fun, h1, h2,
        show ceil_mode ≠ lin_mode from by decide]

/-- Half-to-even rounding never rounds below the floor. -/
lemma pythonRound_ge_floor (q : ℚ) : Int.floor q ≤ pythonRound q := by
  rw [pythonRound]
  split_ifs <;> omega

/-- Half-to-even rounding loses at most one half downward. -/
lemma pythonRound_ge_sub_half (q : ℚ) : q - 1 / 2 ≤ (pythonRound q : ℚ) := by
  have hfl : (Int.floor q : ℚ) ≤ q := Int.floor_le q
  have hlt : q < (Int.floor q : ℚ) + 1 := Int.lt_floor_add_one q
  rw [pythonRound]
  split_ifs with h1 h2 h3
  · linarith
  · push_cast
    linarith
  · linarith
  · push_cast
    linarith

/-- The recorded realized capacity is zero or an integer above the zero
threshold. -/
lemma realized_cap_zero_or_round (v : ℚ) :
    realized_cap v = 0 ∨ (realized_cap v = (pythonRound v : ℚ) ∧ zero_th < v) := by
  rw [realized_cap]
  split_ifs with h
  · exact Or.inr ⟨rfl, h⟩
  · exact Or.inl rfl

/-- C2 counterexample: with a realized stage-one value of 10.4 (= 52/5), the
recorded lower bound is `round(10.4) = 10`, so the stage-two value 10 is
feasible (non-negative and above the enforced lower bound) yet strictly
smaller than the stage-one value: raw capacities are not non-decreasing. -/
theorem stage_value_decrease_cex :
    (0 ≤ (10 : ℚ) ∧ enforce_increase_lb 0 (realized_cap (52 / 5)) ≤ 10) ∧
    ¬ ((52 : ℚ) / 5 ≤ 10) := by
  have h : realized_cap (52 / 5) = 10 := by
    norm_num [realized_cap, zero_th, pythonRound]
  refine ⟨⟨by norm_num, ?_⟩, by norm_num⟩
  rw [h, enforce_increase_lb, if_pos (by norm_num [zero_th])]

/-- C2 (amended): starting from the initial lower bound 0, after a solved
stage the enforced lower bound equals exactly the recorded realized value
(rounded, zero-thresholded) of that stage; consequently any feasible next
stage value — non-negative and at least the enforced bound — can fall below
the previous raw value by at most 1/2 (the rounding slack), and is at least
the recorded rounded value, so the recorded (rounded) capacities are
non-decreasing while the raw solved values need not be. -/
theorem stage_lb_rounding_amended (v x : ℚ) (hx : 0 ≤ x)
    (hlb : enforce_increase_lb 0 (realized_cap v) ≤ x) :
    enforce_increase_lb 0 (realized_cap v) = realized_cap v ∧
    realized_cap v ≤ x ∧ v - 1 / 2 ≤ x := by
  have hround : v - 1 / 2 ≤ (pythonRound v : ℚ) := pythonRound_ge_sub_half v
  have key : enforce_increase_lb 0 (realized_cap v) = realized_cap v := by
    rw [enforce_increase_lb]
    split_ifs with h
    · rfl
    · rcases realized_cap_zero_or_round v with h0 | ⟨hr, hv⟩
      · rw [h0]
      · rw [hr] at h ⊢
        push_neg at h
        have hfl : (0 : ℤ) ≤ Int.floor v := by
          apply Int.floor_nonneg.mpr
          have hz : (0 : ℚ) < zero_th := by norm_num [zero_th]
          linarith
        have hge : (0 : ℤ) ≤ pythonRound v := le_trans hfl (pythonRound_ge_floor v)
        have h1 : pythonRound v = 0 := by
          by_contra hne
          have hge1 : (1 : ℤ) ≤ pythonRound v := by omega
          have hge1q : (1 : ℚ) ≤ (pythonRound v : ℚ) := by exact_mod_cast hge1
          have hgt : zero_th < (pythonRound v : ℚ) := by
            rw [zero_th]
            linarith
          exact absurd h (not_le.mpr hgt)
        rw [h1]
        norm_num
  refine ⟨key, by rw [key] at hlb; exact hlb, ?_⟩
  rw [key] at hlb
  rcases realized_cap_zero_or_round v with h0 | ⟨hr, hv⟩
  · rw [realized_cap] at h0
    by_cases hv : zero_th < v
    · rw [if_pos hv] at h0
      linarith
    · push_neg at hv
      rw [zero_th] at hv
      linarith
  · rw [hr] at hlb
    linarith

/-- C2 witness: the amended statement evaluated at a stage-one value of 10.4
and a stage-two value of 10. -/
theorem stage_lb_rounding_witness :
    0 ≤ (10 : ℚ) ∧
    (enforce_increase_lb 0 (realized_cap (52 / 5)) = realized_cap (52 / 5) ∧
      realized_cap (52 / 5) ≤ 10 ∧ (52 : ℚ) / 5 - 1 / 2 ≤ 10) :=
  ⟨by norm_num,
    stage_lb_rounding_amended (52 / 5) 10 (by norm_num)
      (by norm_num [enforce_increase_lb, realized_cap, zero_th, pythonRound])⟩

/-- Each cable cost function is the parallel-cable count mapped through the
present-valued per-length cost at its class's length and rates. -/
lemma ec1_decomp (w : PVWeights) (d c : ℚ) (f : String) :
    ec1_cost_fun w d c f = (parallel_cables c f).map (cable_pv w (1.10 * d) 0.860 0.540) := rfl

/-- Decomposition of `ec2_cost_fun` (length with the transition add-on). -/
lemma ec2_decomp (w : PVWeights) (d c : ℚ) (f : String) :
    ec2_cost_fun w d c f = (parallel_cables c f).map (cable_pv w (1.10 * d + 2) 0.860 0.540) := rfl

/-- Decomposition of `ec3_cost_fun` (length with the transition add-on). -/
lemma ec3_decomp (w : PVWeights) (d c : ℚ) (f : String) :
    ec3_cost_fun w d c f = (parallel_cables c f).map (cable_pv w (1.10 * d + 2) 0.860 0.540) := rfl

/-- Decomposition of `onc_cost_fun` (halved installation rate). -/
lemma onc_decomp (w : PVWeights) (d c : ℚ) (f : String) :
    onc_cost_fun w d c f = (parallel_cables c f).map (cable_pv w (1.10 * d) 0.860 (0.540 * 0.5)) := rfl

/-- A successful parallel-cable count is non-negative when the capacity is. -/
lemma parallel_cables_nonneg (c : ℚ) (hc : 0 ≤ c) (f : String) (pc : ℚ)
    (h : parallel_cables c f = some pc) : 0 ≤ pc := by
  rw [parallel_cables] at h
  split_ifs at h
  · injection h with h
    rw [← h]
    exact div_nonneg hc (by norm_num)
  · injection h with h
    rw [← h]
    exact_mod_cast Int.ceil_nonneg (div_nonneg hc (by norm_num))

/-- The per-length cable cost vanishes at zero parallel cables. -/
lemma cable_pv_zero (w : PVWeights) (len er ir : ℚ) : cable_pv w len er ir 0 = 0 := by
  rw [cable_pv, present_value_single]
  ring

/-- The per-length cable cost is non-negative for non-negative weights, cable
length, rates and parallel-cable count. -/
lemma cable_pv_nonneg (w : PVWeights) (hw : NonnegWeights w) (len er ir pc : ℚ)
    (hlen : 0 ≤ len) (her : 0 ≤ er) (hir : 0 ≤ ir) (hpc : 0 ≤ pc) :
    0 ≤ cable_pv w len er ir pc := by
  obtain ⟨h1, h2, h3, h4⟩ := hw
  rw [cable_pv, present_value_single]
  have he : 0 ≤ pc * len * er := mul_nonneg (mul_nonneg hpc hlen) her
  have hi : 0 ≤ pc * len * ir := mul_nonneg (mul_nonneg hpc hlen) hir
  have t1 := mul_nonneg h1 he
  have t2 := mul_nonneg h2 hi
  have t3 := mul_nonneg h3 (mul_nonneg (show (0 : ℚ) ≤ 0.2 * (1 / 100) by norm_num) he)
  have t4 := mul_nonneg h4 (mul_nonneg (show (0 : ℚ) ≤ 0.5 by norm_num) hi)
  linarith

/-- A mapped cable cost, when it succeeds, is non-negative. -/
lemma map_cable_pv_nonneg (w : PVWeights) (hw : NonnegWeights w) (len er ir c : ℚ)
    (hlen : 0 ≤ len) (her : 0 ≤ er) (hir : 0 ≤ ir) (hc : 0 ≤ c) (f : String) (r : ℚ)
    (h : (parallel_cables c f).map (cable_pv w len er ir) = some r) : 0 ≤ r := by
  rcases hp : parallel_cables c f with _ | pc
  · rw [hp] at h
    simp at h
  · rw [hp, Option.map_some'] at h
    injection h with h
    rw [← h]
    exact cable_pv_nonneg w hw len er ir pc hlen her hir (parallel_cables_nonneg c hc f pc hp)

/-- A mapped cable cost at zero capacity succeeds with value zero in both
modes. -/
lemma map_cable_pv_zero (w : PVWeights) (len er ir : ℚ) :
    (parallel_cables 0 lin_mode).map (cable_pv w len er ir) = some 0 ∧
    (parallel_cables 0 ceil_mode).map (cable_pv w len er ir) = some 0 := by
  constructor
  · rw [parallel_cables, if_pos rfl, zero_div, Option.map_some', cable_pv_zero]
  · rw [parallel_cables, if_neg (by decide), if_pos rfl, zero_div, Int.ceil_zero,
      Int.cast_zero, Option.map_some', cable_pv_zero]

/-- C1 counterexample: at zero capacity with a positive threshold (100 MW) the
onshore substation cost is strictly negative, not zero: the equipment term
`(capacity - threshold) * 0.02287` is negative and nothing clamps it inside
the function.  Evaluated with the undiscounted weight scheme. -/
theorem onss_cost_lin_zero_cap_cex :
    onss_cost_lin unit_weights 0 100 ≠ 0 ∧ onss_cost_lin unit_weights 0 100 < 0 := by
  constructor
  · norm_num [onss_cost_lin, present_value_single, unit_weights]
  · norm_num [onss_cost_lin, present_value_single, unit_weights]

/-- C1 (amended): for every discounting scheme with non-negative weights, the
wind-farm cost and all four cable cost functions return exactly 0 at zero
capacity and a non-negative cost for non-negative inputs; the onshore
substation cost is 0 at capacity equal to the threshold and non-negative for
capacity at least the threshold, but at zero capacity with a positive
threshold it is strictly negative (the model clamps it downstream through the
non-negative `onss_cost_var` and the `max(0, ...)` applied in result
extraction). -/
theorem cost_zero_at_zero_amended (w : PVWeights) (hw : NonnegWeights w)
    (hpos : 0 < w.equip) (wfc T d c th : ℚ) (hwfc : 0 ≤ wfc) (hT : 0 < T)
    (hd : 0 ≤ d) (hc : 0 ≤ c) (hth : 0 < th) :
    wf_cost_lin wfc T 0 = 0 ∧
    0 ≤ wf_cost_lin wfc T c ∧
    (ec1_cost_fun w d 0 lin_mode = some 0 ∧ ec1_cost_fun w d 0 ceil_mode = some 0) ∧
    (ec2_cost_fun w d 0 lin_mode = some 0 ∧ ec2_cost_fun w d 0 ceil_mode = some 0) ∧
    (ec3_cost_fun w d 0 lin_mode = some 0 ∧ ec3_cost_fun w d 0 ceil_mode = some 0) ∧
    (onc_cost_fun w d 0 lin_mode = some 0 ∧ onc_cost_fun w d 0 ceil_mode = some 0) ∧
    (∀ f r, ec1_cost_fun w d c f = some r → 0 ≤ r) ∧
    (∀ f r, ec2_cost_fun w d c f = some r → 0 ≤ r) ∧
    (∀ f r, ec3_cost_fun w d c f = some r → 0 ≤ r) ∧
    (∀ f r, onc_cost_fun w d c f = some r → 0 ≤ r) ∧
    onss_cost_lin w th th = 0 ∧
    (th ≤ c → 0 ≤ onss_cost_lin w c th) ∧
    onss_cost_lin w 0 th < 0 := by
  obtain ⟨hw1, hw2, hw3, hw4⟩ := hw
  have hlen1 : 0 ≤ 1.10 * d := mul_nonneg (by norm_num) hd
  have hlen2 : 0 ≤ 1.10 * d + 2 := by linarith
  have her : (0 : ℚ) ≤ 0.860 := by norm_num
  have hir : (0 : ℚ) ≤ 0.540 := by norm_num
  have hir2 : (0 : ℚ) ≤ 0.540 * 0.5 := by norm_num
  refine ⟨?_, ?_, ?_, ?_, ?_, ?_, ?_, ?_, ?_, ?_, ?_, ?_, ?_⟩
  · rw [wf_cost_lin, zero_div, mul_zero]
  · exact mul_nonneg hwfc (div_nonneg hc (le_of_lt hT))
  · exact ⟨(ec1_decomp w d 0 lin_mode).trans (map_cable_pv_zero w (1.10 * d) 0.860 0.540).1,
      (ec1_decomp w d 0 ceil_mode).trans (map_cable_pv_zero w (1.10 * d) 0.860 0.540).2⟩
  · exact ⟨(ec2_decomp w d 0 lin_mode).trans (map_cable_pv_zero w (1.10 * d + 2) 0.860 0.540).1,
      (ec2_decomp w d 0 ceil_mode).trans (map_cable_pv_zero w (1.10 * d + 2) 0.860 0.540).2⟩
  · exact ⟨(ec3_decomp w d 0 lin_mode).trans (map_cable_pv_zero w (1.10 * d + 2) 0.860 0.540).1,
      (ec3_decomp w d 0 ceil_mode).trans (map_cable_pv_zero w (1.10 * d + 2) 0.860 0.540).2⟩
  · exact ⟨(onc_decomp w d 0 lin_mode).trans (map_cable_pv_zero w (1.10 * d) 0.860 (0.540 * 0.5)).1,
      (onc_decomp w d 0 ceil_mode).trans (map_cable_pv_zero w (1.10 * d) 0.860 (0.540 * 0.5)).2⟩
  · exact fun f r h => map_cable_pv_nonneg w ⟨hw1, hw2, hw3, hw4⟩ (1.10 * d) 0.860 0.540 c
      hlen1 her hir hc f r ((ec1_decomp w d c f).symm.trans h)
  · exact fun f r h => map_cable_pv_nonneg w ⟨hw1, hw2, hw3, hw4⟩ (1.10 * d + 2) 0.860 0.540 c
      hlen2 her hir hc f r ((ec2_decomp w d c f).symm.trans h)
  · exact fun f r h => map_cable_pv_nonneg w ⟨hw1, hw2, hw3, hw4⟩ (1.10 * d + 2) 0.860 0.540 c
      hlen2 her hir hc f r ((ec3_decomp w d c f).symm.trans h)
  · exact fun f r h => map_cable_pv_nonneg w ⟨hw1, hw2, hw3, hw4⟩ (1.10 * d) 0.860 (0.540 * 0.5) c
      hlen1 her hir2 hc f r ((onc_decomp w d c f).symm.trans h)
  · simp [onss_cost_lin, present_value_single]
  · intro hle
    simp only [onss_cost_lin, present_value_single]
    have he : 0 ≤ (c - th) * 0.02287 := mul_nonneg (by linarith) (by norm_num)
    have t1 := mul_nonneg hw1 he
    have t3 := mul_nonneg hw3 (mul_nonneg (show (0 : ℚ) ≤ 0.015 by norm_num) he)
    nlinarith
  · simp only [onss_cost_lin, present_value_single]
    have he : (0 - th) * 0.02287 < 0 :=
      mul_neg_of_neg_of_pos (by linarith) (by norm_num)
    have t1 : w.equip * ((0 - th) * 0.02287) < 0 := mul_neg_of_pos_of_neg hpos he
    have t3 : w.ope * (0.015 * ((0 - th) * 0.02287)) ≤ 0 := by
      have h015 : 0.015 * ((0 - th) * 0.02287) ≤ 0 := by nlinarith
      exact mul_nonpos_of_nonneg_of_nonpos hw3 h015
    nlinarith

/-- C1 witness: the amended statement applied with the undiscounted weight
scheme and unit inputs yields zero wind-farm cost at zero capacity. -/
theorem cost_zero_at_zero_witness : wf_cost_lin 1 1 0 = 0 :=
  (cost_zero_at_zero_amended unit_weights
    (by norm_num [NonnegWeights, unit_weights]) (by norm_num [unit_weights])
    1 1 1 1 1 (by norm_num) (by norm_num) (by norm_num) (by norm_num) (by norm_num)).1
